import Mathlib

/-!
Shallow embedding of the core pipeline of the gsa_scraper repository
(season/gameweek crawl-and-reconcile): the retry orchestrator
(src/utils/utilities.js, withRetry), the sequencer
(src/lib/sort_gameweeks.js, sortGameweeksByDate), the verifier
(src/lib/gameweek_verification.js, verifyGameweekData), the standings
extractor (src/lib/scrape_standing.js, scrapeLeagueStanding), season
discovery (src/lib/scrape_season_links.js, scrapeSeasonsLinks) and the
gameweek extractor loop (src/lib/league_scraper.js, scrapeGameweeks).

Modelling conventions:
- JavaScript strings are Lean `String`s; the default `Array.prototype.sort()`
  on strings (UTF-16 code-unit lexicographic) and the `localeCompare`
  comparator are both modelled by the lexicographic order on `String.data`
  (`List Char`); `Array.prototype.sort` is a stable sort (ECMA-262), modelled
  by Mathlib's stable `List.insertionSort`.
- A JavaScript `Set` of strings is modelled by a `List String` accumulator
  with membership testing; insertion order is irrelevant to the code.
- Page/browser interactions (puppeteer) are external: the values they return
  (extracted rows, flags read off the page) are parameters of the models.
- Async I/O logging (`saveJSON`, console output) has no effect on the data
  flow and is not modelled; the report entries the verifier pushes are kept.
-/

namespace GsaScraper

/-- One match row, as extracted by scrapeGameweeks' page.evaluate
(src/lib/league_scraper.js): `{date, time, homeTeam, awayTeam, score,
statsUrl, awarded?}`.  The optional `awarded` field (absent unless true)
is modelled as a `Bool` defaulting to `false`. -/
structure Match where
  date : String
  time : String
  homeTeam : String
  awayTeam : String
  score : String
  statsUrl : String
  awarded : Bool := false
deriving DecidableEq, Repr

/-- A gameweek record `{gameweek: number, matches: [...]}` as built by
scrapeGameweeks and consumed by the verifier and the sequencer. -/
structure Gameweek where
  gameweek : Nat
  «matches» : List Match
deriving DecidableEq, Repr

/-- The regex test `/^\d{4}-\d{2}-\d{2}$/.test(date)` used throughout
sort_gameweeks.js and gameweek_verification.js: exactly 10 characters,
positions 4 and 7 are a dash, every other position an ASCII digit. -/
def isValidDate (s : String) : Bool :=
  s.length == 10 &&
  (List.range 10).all (fun i =>
    if i == 4 || i == 7 then s.data.getD i ' ' == '-'
    else (s.data.getD i ' ').isDigit)

/-- The match identity string
`` `${m.homeTeam}|${m.awayTeam}|${m.date}|${m.score}` `` used by
scrapeGameweeks, verifyGameweekData and sortGameweeksByDate. -/
def matchSignature (m : Match) : String :=
  m.homeTeam ++ "|" ++ m.awayTeam ++ "|" ++ m.date ++ "|" ++ m.score

/-- Code-unit lexicographic order on strings: the comparison performed by the
default `Array.prototype.sort()` on strings and by `localeCompare` (for the
ASCII data handled here). -/
def stringLe (a b : String) : Prop := a.data ≤ b.data

instance : DecidableRel stringLe := fun a b =>
  inferInstanceAs (Decidable (a.data ≤ b.data))

instance : IsTotal String stringLe := ⟨fun a b => le_total a.data b.data⟩

instance : IsTrans String stringLe := ⟨fun _ _ _ => le_trans⟩

instance : IsAntisymm String stringLe :=
  ⟨fun a b h h' => by
    have hd : a.data = b.data := le_antisymm h h'
    cases a
    cases b
    exact congrArg String.mk hd⟩

/-- JavaScript `strings.sort()` (stable, code-unit order). -/
def sortStrings (l : List String) : List String := l.insertionSort stringLe

/-- The whole-gameweek dedup key of sortGameweeksByDate:
`gw.matches.map(sig).sort().join(';')`. -/
def gwSignature (gw : Gameweek) : String :=
  String.intercalate ";" (sortStrings (gw.matches.map matchSignature))

/-- The validity filter of sortGameweeksByDate: `gw.matches &&
gw.matches.length > 0 && gw.matches.some(m => valid date)`.  (The first
conjunct, array truthiness, is always true and drops out.) -/
def hasValidMatches (gw : Gameweek) : Bool :=
  !gw.matches.isEmpty && gw.matches.any (fun m => isValidDate m.date)

/-- The dedup loop of sortGameweeksByDate: walk the list keeping the first
gameweek carrying each signature, threading the `matchSetSignatures` set. -/
def dedupGameweeks : List Gameweek → List String → List Gameweek
  | [], _ => []
  | gw :: rest, seen =>
    let s := gwSignature gw
    if s ∈ seen then dedupGameweeks rest seen
    else gw :: dedupGameweeks rest (s :: seen)

/-- The sort key of sortGameweeksByDate's comparator:
`matches.map(m => m.date).filter(valid).sort()[0] || '9999-12-31'`. -/
def earliestDate (gw : Gameweek) : String :=
  (sortStrings ((gw.matches.map Match.date).filter isValidDate)).headD
    "9999-12-31"

/-- The comparator `earliestDateA.localeCompare(earliestDateB) <= 0` driving
the stable sort of gameweeks. -/
def gwDateLe (a b : Gameweek) : Prop :=
  (earliestDate a).data ≤ (earliestDate b).data

instance : DecidableRel gwDateLe := fun a b =>
  inferInstanceAs (Decidable ((earliestDate a).data ≤ (earliestDate b).data))

instance : IsTotal Gameweek gwDateLe :=
  ⟨fun a b => le_total (earliestDate a).data (earliestDate b).data⟩

instance : IsTrans Gameweek gwDateLe := ⟨fun _ _ _ => le_trans⟩

/-- The renumbering map `uniqueGameweeks.map((gw, index) =>
({gameweek: index + 1, matches: gw.matches}))`, with the running index made
explicit. -/
def renumber : Nat → List Gameweek → List Gameweek
  | _, [] => []
  | i, gw :: rest =>
    { gameweek := i + 1, «matches» := gw.matches } :: renumber (i + 1) rest

/-- src/lib/sort_gameweeks.js, sortGameweeksByDate: filter out gameweeks with
no valid-dated match, drop whole-gameweek duplicates (first occurrence wins),
stable-sort by earliest valid date, renumber from 1. -/
def sortGameweeksByDate (gameweeks : List Gameweek) : List Gameweek :=
  let validGameweeks := gameweeks.filter hasValidMatches
  let uniqueGameweeks := dedupGameweeks validGameweeks []
  let sorted := List.insertionSort gwDateLe uniqueGameweeks
  renumber 0 sorted

/-! ## Retry Orchestrator (src/utils/utilities.js, withRetry) -/

/-- `needle.isPrefixOf`-based substring test: JavaScript
`haystack.includes(needle)`. -/
def containsSub (needle : List Char) : List Char → Bool
  | [] => needle.isEmpty
  | c :: t => needle.isPrefixOf (c :: t) || containsSub needle t

/-- JavaScript `s.includes(sub)`. -/
def strContains (s sub : String) : Bool := containsSub sub.data s.data

/-- The recoverable-network-class test of withRetry:
`error.message.includes('net::ERR_INTERNET_DISCONNECTED') ||
 error.message.includes('net::ERR_NAME_NOT_RESOLVED') ||
 error.message.includes('timeout')`. -/
def isNetworkError (msg : String) : Bool :=
  strContains msg "net::ERR_INTERNET_DISCONNECTED" ||
  strContains msg "net::ERR_NAME_NOT_RESOLVED" ||
  strContains msg "timeout"

instance {ε α : Type} [DecidableEq ε] [DecidableEq α] :
    DecidableEq (Except ε α)
  | Except.error a, Except.error b =>
    if h : a = b then isTrue (by rw [h])
    else isFalse (by intro k; cases k; exact h rfl)
  | Except.error _, Except.ok _ => isFalse (by intro k; cases k)
  | Except.ok _, Except.error _ => isFalse (by intro k; cases k)
  | Except.ok a, Except.ok b =>
    if h : a = b then isTrue (by rw [h])
    else isFalse (by intro k; cases k; exact h rfl)

/-- Result of one call of the wrapped operation.  A stateful JavaScript
operation is modelled by a function from the call number (the loop's
`attempt`, starting at 1) to its result. -/
inductive OpResult (α : Type) where
  | ok : α → OpResult α
  | err : String → OpResult α
deriving DecidableEq, Repr

/-- Observable behaviour of one withRetry run: the returned value or thrown
error message, the number of times the operation was called, and the list of
exponential-backoff waits performed, in seconds (`Math.pow(2, attempt)`).
The reconnection-poll waits of the inner reachability loop are not part of
`backoffs`. -/
structure RetryTrace (α : Type) where
  outcome : Except String α
  calls : Nat
  backoffs : List Nat
deriving DecidableEq, Repr

/-- The `for (attempt = 1; attempt <= maxRetries; attempt++)` loop of
withRetry, recursed on `remaining`, the number of loop iterations left
(`maxRetries + 1 - attempt`; the caller starts it at `maxRetries` with
`attempt = 1`, and `remaining = 0` is the loop exiting into the final
`throw lastError`).  `reconnectOk attempt` abstracts the reachability-poll
loop: true when the probe succeeds within `maxWaitForReconnect`, false when
the budget elapses and `'Network reconnection timeout exceeded'` is thrown.
The source's redundant inner `if (isNetworkError)` before the poll loop is
collapsed into the outer branch it always agrees with. -/
def withRetryGo {α : Type} (op : Nat → OpResult α) (reconnectOk : Nat → Bool)
    (maxRetries : Nat) :
    Nat → Nat → Option String → Nat → List Nat → RetryTrace α
  | 0, _, lastError, calls, backoffs =>
    -- loop over: `throw lastError` (undefined when the loop never ran,
    -- modelled by the empty message)
    { outcome := Except.error (lastError.getD ""), calls := calls,
      backoffs := backoffs }
  | remaining + 1, attempt, _, calls, backoffs =>
    match op attempt with
    | OpResult.ok v =>
      { outcome := Except.ok v, calls := calls + 1, backoffs := backoffs }
    | OpResult.err e =>
      if isNetworkError e && attempt ≤ maxRetries then
        let backoffs' := backoffs ++ [2 ^ attempt]
        if reconnectOk attempt then
          withRetryGo op reconnectOk maxRetries remaining (attempt + 1)
            (some e) (calls + 1) backoffs'
        else
          { outcome := Except.error "Network reconnection timeout exceeded",
            calls := calls + 1, backoffs := backoffs' }
      else if attempt = maxRetries then
        { outcome := Except.error e, calls := calls + 1, backoffs := backoffs }
      else
        withRetryGo op reconnectOk maxRetries remaining (attempt + 1)
          (some e) (calls + 1) backoffs

/-- src/utils/utilities.js, withRetry (default maxRetries = 3). -/
def withRetry {α : Type} (op : Nat → OpResult α) (reconnectOk : Nat → Bool)
    (maxRetries : Nat := 3) : RetryTrace α :=
  withRetryGo op reconnectOk maxRetries maxRetries 1 none 0 []

/-! ## Verifier (src/lib/gameweek_verification.js, verifyGameweekData) -/

/-- One report entry `{type, message}` (the timestamp, seasonUrl and details
fields carry no data relevant to control flow and are omitted). -/
structure Issue where
  type : String
  message : String
deriving DecidableEq, Repr

/-- The running-set duplicate scan: every occurrence of a signature already
in `seen` is collected as a duplicate, first occurrences are added to the
set. -/
def scanDuplicates : List String → List String → List String
  | [], _ => []
  | s :: rest, seen =>
    if s ∈ seen then s :: scanDuplicates rest seen
    else scanDuplicates rest (s :: seen)

/-- The signatures of all matches of all gameweeks in traversal order: the
nested `gameweeks.forEach(gw => gw.matches.forEach(...))` with one shared
set walks exactly this flattened sequence. -/
def flatSignatures (gameweeks : List Gameweek) : List String :=
  ((gameweeks.map fun gw => gw.matches).flatten).map matchSignature

/-- src/lib/gameweek_verification.js, verifyGameweekData: throws
(`Except.error`) when the duplicate scan found anything, otherwise returns
the unchanged data plus the warning report (low match count, invalid dates,
empty gameweeks, in source order).  The `seasonUrl`/`outputDir` arguments
only feed the issue log and are omitted. -/
def verifyGameweekData (gameweeks : List Gameweek)
    (expectedMatchesPerGameweek : Nat) :
    Except String (List Gameweek × List Issue) :=
  let duplicateMatches := scanDuplicates (flatSignatures gameweeks) []
  if duplicateMatches.length > 0 then
    Except.error ("Duplicate matches detected: " ++
      toString duplicateMatches.length ++
      " instances. See gameweek_verification_issues.log for details.")
  else
    let matchThreshold := expectedMatchesPerGameweek / 2
    let lowMatchGameweeks := gameweeks.filter fun gw =>
      gw.matches.length > 0 && gw.matches.length < matchThreshold
    let lowReport := lowMatchGameweeks.map fun gw =>
      Issue.mk "warning" ("Gameweek " ++ toString gw.gameweek ++
        " has fewer matches than expected")
    let invalidDateGameweeks := gameweeks.filter fun gw =>
      gw.matches.any fun m => !isValidDate m.date
    let invalidReport := invalidDateGameweeks.map fun gw =>
      Issue.mk "warning" ("Gameweek " ++ toString gw.gameweek ++
        " contains matches with invalid or missing dates")
    let emptyGameweeks := gameweeks.filter fun gw => gw.matches.length == 0
    let emptyReport := emptyGameweeks.map fun gw =>
      Issue.mk "warning" ("Gameweek " ++ toString gw.gameweek ++
        " is empty (no matches)")
    Except.ok (gameweeks, lowReport ++ invalidReport ++ emptyReport)

/-! ## Standings Extractor (src/lib/scrape_standing.js) and Season
Discovery (src/lib/scrape_season_links.js) -/

/-- A league-table row as extracted by scrapeLeagueStanding.  The numeric
cells go through `parseInt(..., 10)`; a cell that fails to parse yields NaN,
which is not representable here — `matchPlayed : Int` models the parsed
value (the all-zero degenerate check treats NaN like 0 anyway). -/
structure StandingRow where
  rank : String
  team : String
  matchPlayed : Int
  won : Int
  draw : Int
  lost : Int
  goalsScored : Int
  goalsAllowed : Int
  goalDifference : Int
  points : Int
deriving DecidableEq, Repr

/-- Pure core of src/lib/scrape_standing.js, scrapeLeagueStanding, with the
page abstracted: `hasResults` is the page check for a non-placeholder score
(some `.gsa-c-match-c3` text differs from `':'`), `standings` the rows the
page extraction produced.  Returns `[]` for the no-results page, for an
empty extraction, and for a non-empty table whose every `matchPlayed` is
zero (`isValidStanding` false); otherwise returns the rows. -/
def scrapeLeagueStanding (hasResults : Bool)
    (standings : List StandingRow) : List StandingRow :=
  if !hasResults then []
  else if standings.length == 0 then []
  else
    let isValidStanding := standings.any fun s => !(s.matchPlayed == 0)
    if isValidStanding then standings else []

/-- One candidate season of the discovery loop: its dropdown label and URL
plus the page data its standings scrape will see. -/
structure SeasonCandidate where
  season : String
  url : String
  hasResults : Bool
  rows : List StandingRow
deriving DecidableEq, Repr

/-- `{season, url, leagueStanding}` as pushed onto `validSeasons`. -/
structure SeasonLink where
  season : String
  url : String
  leagueStanding : List StandingRow
deriving DecidableEq, Repr

/-- The per-candidate validation loop of scrapeSeasonsLinks: scrape the
standings of each target season and keep it iff the result is non-empty
(`if (standings.length) validSeasons.push(...)`). -/
def discoverValidSeasons (candidates : List SeasonCandidate) :
    List SeasonLink :=
  candidates.filterMap fun c =>
    let standings := scrapeLeagueStanding c.hasResults c.rows
    if standings.length ≠ 0 then some ⟨c.season, c.url, standings⟩ else none

/-! ## Gameweek Extractor (src/lib/league_scraper.js, scrapeGameweeks) -/

/-- The per-attempt duplicate check of scrapeGameweeks: walk the extracted
rows left to right against the season's running `matchSignatures` set,
splitting them into `newMatches` (signature added to the set immediately)
and `duplicates`.  Returns `(newMatches, duplicates, updated set)` — the
set keeps every addition even when duplicates were found. -/
def partitionDuplicates (sigs : List String) :
    List Match → List Match × List Match × List String
  | [] => ([], [], sigs)
  | m :: rest =>
    let s := matchSignature m
    if s ∈ sigs then
      let r := partitionDuplicates sigs rest
      (r.1, m :: r.2.1, r.2.2)
    else
      let r := partitionDuplicates (s :: sigs) rest
      (m :: r.1, r.2.1, r.2.2)

/-- The season-level mutable state of scrapeGameweeks: the running match
signature set and the `errorSignal` flag. -/
structure WeekState where
  sigs : List String
  errorSignal : Bool
deriving DecidableEq, Repr

/-- The `while (retryCount < maxRetries && !gameweekSuccess)` loop for one
gameweek, recursed on the remaining attempt budget
(`maxRetries - retryCount`; the source fixes `maxRetries = 3` and starts at
`retryCount = 0`).  `extract retryCount` abstracts navigation+extraction
for that attempt: a structural error (thrown `matches.error` or any
navigation/wait failure) or the list of extracted rows.  Duplicate or
sparse attempts set the error flag, keep the mutated signature set, and
retry; an exhausted budget skips the gameweek (`none`) with the error flag
set. -/
def runWeekAttempts (extract : Nat → Except String (List Match))
    (expected : Nat) :
    Nat → Nat → WeekState → Option (List Match) × WeekState
  | 0, _, st => (none, { st with errorSignal := true })
  | budget + 1, retryCount, st =>
    match extract retryCount with
    | Except.error _ =>
      runWeekAttempts extract expected budget (retryCount + 1)
        { st with errorSignal := true }
    | Except.ok ms =>
      let r := partitionDuplicates st.sigs ms
      if r.2.1.length > 0 then
        runWeekAttempts extract expected budget (retryCount + 1) ⟨r.2.2, true⟩
      else if r.1.length < expected / 2 then
        runWeekAttempts extract expected budget (retryCount + 1) ⟨r.2.2, true⟩
      else (some r.1, ⟨r.2.2, st.errorSignal⟩)

/-- The `for (week = 1; week <= maxGameweeks; week++)` loop: accepted
gameweeks are appended as `{gameweek: week, matches: newMatches}`, skipped
weeks contribute nothing. -/
def runAllWeeks (extract : Nat → Nat → Except String (List Match))
    (expected : Nat) :
    List Nat → List Gameweek → WeekState → List Gameweek × WeekState
  | [], acc, st => (acc, st)
  | w :: ws, acc, st =>
    let r := runWeekAttempts (extract w) expected 3 0 st
    match r.1 with
    | some ms => runAllWeeks extract expected ws (acc ++ [⟨w, ms⟩]) r.2
    | none => runAllWeeks extract expected ws acc r.2

/-- What one scrapeGameweeks call evaluates to: either the documented
`{hasErrorOccurred, result}` record, or — on the no-results path
(`return []`) — a bare array. -/
inductive ScrapeReturn where
  | outcome (hasErrorOccurred : Bool) (result : List Gameweek)
  | bareArray (result : List Gameweek)
deriving DecidableEq, Repr

/-- src/lib/league_scraper.js, scrapeGameweeks, with the page abstracted:
`fatalError` true when an unrecoverable exception reaches the outer
try/catch (navigation failure after retries, reconnection timeout, ...)
which returns `{hasErrorOccurred: true, result: []}`; `hasResults` the
non-placeholder-score check, whose failure path is the literal `return []`;
`maxGameweeks` the `#maxweek` input value; `extract week retр` the
per-attempt extraction.  A duplicate found by the final verification pass
is thrown and lands in the outer catch. -/
def scrapeGameweeks (fatalError : Bool) (hasResults : Bool)
    (maxGameweeks : Nat) (extract : Nat → Nat → Except String (List Match))
    (expectedMatchesPerGameweek : Option Nat) : ScrapeReturn :=
  if fatalError then ScrapeReturn.outcome true []
  else if !hasResults then ScrapeReturn.bareArray []
  else
    let calculated := (maxGameweeks + 2) / 2 / 2
    let finalExpected := expectedMatchesPerGameweek.getD calculated
    let r := runAllWeeks extract finalExpected (List.range' 1 maxGameweeks)
      [] ⟨[], false⟩
    match verifyGameweekData r.1 finalExpected with
    | Except.error _ => ScrapeReturn.outcome true []
    | Except.ok v =>
      ScrapeReturn.outcome r.2.errorSignal (sortGameweeksByDate v.1)

/-! ## Helper lemmas -/

lemma renumber_length (i : Nat) (l : List Gameweek) :
    (renumber i l).length = l.length := by
  induction l generalizing i with
  | nil => rfl
  | cons gw rest ih => simp [renumber, ih]

lemma renumber_map_gameweek (i : Nat) (l : List Gameweek) :
    (renumber i l).map (fun gw => gw.gameweek) =
      List.range' (i + 1) l.length := by
  induction l generalizing i with
  | nil => rfl
  | cons gw rest ih => simp [renumber, ih, List.range'_succ]

/-- C5: For every input, the gameweek numbers of the Sequencer's output form
exactly the contiguous sequence 1, 2, ..., N where N is the number of output
gameweeks, with no gaps and no repeats. -/
theorem sortGameweeksByDate_numbers_contiguous (gameweeks : List Gameweek) :
    (sortGameweeksByDate gameweeks).map (fun gw => gw.gameweek) =
      List.range' 1 (sortGameweeksByDate gameweeks).length := by
  unfold sortGameweeksByDate
  rw [renumber_map_gameweek, renumber_length]

/-- C3: the season-crawl attempt does NOT always return a
`{hasErrorOccurred, result}` record: on the page-has-no-results path the
source's `return []` yields a bare array, which is a different shape from
every `{hasErrorOccurred, result}` record (the function's own JSDoc return
type and its caller both expect the record). -/
theorem scrapeGameweeks_noResults_returns_bare_array :
    scrapeGameweeks false false 5 (fun _ _ => Except.ok []) none =
      ScrapeReturn.bareArray [] ∧
    ∀ (b : Bool) (r : List Gameweek),
      ScrapeReturn.bareArray [] ≠ ScrapeReturn.outcome b r :=
  ⟨rfl, fun _ _ h => ScrapeReturn.noConfusion h⟩

/-- C9: a non-empty table whose rows all have `matchPlayed = 0` is
degenerate: the Standings Extractor returns `[]` for it, and Season
Discovery therefore accepts no season whose candidate standings are all
zero. -/
theorem allZero_standings_excluded (h : Bool) (rows : List StandingRow)
    (cands : List SeasonCandidate)
    (hrows : ∀ s ∈ rows, s.matchPlayed = 0)
    (hcands : ∀ c ∈ cands, ∀ s ∈ c.rows, s.matchPlayed = 0) :
    scrapeLeagueStanding h rows = [] ∧ discoverValidSeasons cands = [] := by
  have key : ∀ (h' : Bool) (rs : List StandingRow),
      (∀ s ∈ rs, s.matchPlayed = 0) → scrapeLeagueStanding h' rs = [] := by
    intro h' rs hz
    unfold scrapeLeagueStanding
    have hany : (rs.any fun s => !(s.matchPlayed == 0)) = false := by
      rw [List.any_eq_false]
      intro x hx
      simp [hz x hx]
    cases h' with
    | false => rfl
    | true => simp [hany]
  refine ⟨key h rows hrows, ?_⟩
  unfold discoverValidSeasons
  rw [List.filterMap_eq_nil_iff]
  intro c hc
  rw [key c.hasResults c.rows (hcands c hc)]
  simp

/-- C9 witness: two discovered seasons whose standings are a single
`matchPlayed = 0` row are both excluded. -/
theorem allZero_standings_excluded_witness :
    scrapeLeagueStanding true [⟨"1", "T", 0, 0, 0, 0, 0, 0, 0, 0⟩] = [] ∧
    discoverValidSeasons
      [⟨"2022/2023", "u", true, [⟨"1", "T", 0, 0, 0, 0, 0, 0, 0, 0⟩]⟩,
       ⟨"2023/2024", "v", true, [⟨"1", "T", 0, 0, 0, 0, 0, 0, 0, 0⟩]⟩] =
      [] :=
  allZero_standings_excluded true [⟨"1", "T", 0, 0, 0, 0, 0, 0, 0, 0⟩]
    [⟨"2022/2023", "u", true, [⟨"1", "T", 0, 0, 0, 0, 0, 0, 0, 0⟩]⟩,
     ⟨"2023/2024", "v", true, [⟨"1", "T", 0, 0, 0, 0, 0, 0, 0, 0⟩]⟩]
    (by decide) (by decide)

/-- C1 counterexample: `maxRetries = 2`, operation fails with the
non-network error "boom" on call 1 and succeeds on call 2.  The claim says
withRetry re-raises "boom" after calling the operation exactly once; the
code instead retries silently (no backoff) and returns the second call's
success after two calls. -/
theorem withRetry_nonNetwork_counterexample :
    isNetworkError "boom" = false ∧
    withRetry (fun i => if i = 1 then OpResult.err "boom" else OpResult.ok 42)
      (fun _ => true) 2 =
      { outcome := Except.ok 42, calls := 2, backoffs := [] } := by decide

lemma withRetryGo_nonNetwork_aux {α : Type} (op : Nat → OpResult α)
    (rc : Nat → Bool) (m : Nat) (err : Nat → String)
    (hop : ∀ i, 1 ≤ i → i ≤ m → op i = OpResult.err (err i))
    (hnet : ∀ i, 1 ≤ i → i ≤ m → isNetworkError (err i) = false) :
    ∀ (k attempt calls : Nat) (le : Option String) (backoffs : List Nat),
      1 ≤ attempt → attempt + k = m →
      withRetryGo op rc m (k + 1) attempt le calls backoffs =
        { outcome := Except.error (err m), calls := calls + k + 1,
          backoffs := backoffs } := by
  intro k
  induction k with
  | zero =>
    intro attempt calls le backoffs h1 h2
    have ha : attempt = m := by omega
    subst ha
    rw [withRetryGo, hop attempt h1 (le_refl _)]
    simp [hnet attempt h1 (le_refl _)]
  | succ k ih =>
    intro attempt calls le backoffs h1 h2
    have ha : attempt ≠ m := by omega
    rw [withRetryGo, hop attempt h1 (by omega)]
    simp only [hnet attempt h1 (by omega), Bool.false_and, Bool.false_eq_true,
      if_false, ha, ite_false]
    rw [ih (attempt + 1) (calls + 1) (some (err attempt)) backoffs
      (by omega) (by omega)]
    have harith : calls + 1 + k + 1 = calls + (k + 1) + 1 := by omega
    rw [harith]

/-- C1 amended: a non-network error does not propagate immediately; withRetry
silently retries it (with no backoff wait) while attempts remain, and only at
`attempt = maxRetries` re-raises the last error, having called the operation
`maxRetries` times in total. -/
theorem withRetry_nonNetwork_retries {α : Type} (op : Nat → OpResult α)
    (rc : Nat → Bool) (maxRetries : Nat) (err : Nat → String)
    (hm : 1 ≤ maxRetries)
    (hop : ∀ i, 1 ≤ i → i ≤ maxRetries → op i = OpResult.err (err i))
    (hnet : ∀ i, 1 ≤ i → i ≤ maxRetries → isNetworkError (err i) = false) :
    withRetry op rc maxRetries =
      { outcome := Except.error (err maxRetries), calls := maxRetries,
        backoffs := [] } := by
  have key := withRetryGo_nonNetwork_aux op rc maxRetries err hop hnet
    (maxRetries - 1) 1 0 none [] (le_refl _) (by omega)
  simp only [Nat.zero_add] at key
  rw [show maxRetries - 1 + 1 = maxRetries from by omega] at key
  unfold withRetry
  exact key

/-- C1 amended witness: an operation always failing with "boom" under
`maxRetries = 3` is called three times and the error is re-raised at the
end, with no backoff waits. -/
theorem withRetry_nonNetwork_retries_witness :
    withRetry (fun _ => OpResult.err "boom" (α := Nat)) (fun _ => true) 3 =
      { outcome := Except.error "boom", calls := 3, backoffs := [] } :=
  withRetry_nonNetwork_retries (fun _ => OpResult.err "boom") (fun _ => true)
    3 (fun _ => "boom") (by omega) (fun _ _ _ => rfl) (fun _ _ _ => rfl)

/-- C8: an operation failing on its first two calls with recoverable
network-class errors and succeeding on the third, run under any
`maxRetries ≥ 3` (with the reachability probe succeeding), returns the
third call's value after exactly three calls and exactly two exponential
backoff waits of `2^1` and `2^2` seconds, performed before the second and
third calls. -/
theorem withRetry_recoverable_twice_then_success {α : Type}
    (op : Nat → OpResult α) (rc : Nat → Bool) (maxRetries : Nat) (v : α)
    (e1 e2 : String) (hm : 3 ≤ maxRetries)
    (h1 : op 1 = OpResult.err e1) (hn1 : isNetworkError e1 = true)
    (h2 : op 2 = OpResult.err e2) (hn2 : isNetworkError e2 = true)
    (h3 : op 3 = OpResult.ok v)
    (hrc1 : rc 1 = true) (hrc2 : rc 2 = true) :
    withRetry op rc maxRetries =
      { outcome := Except.ok v, calls := 3, backoffs := [2, 4] } := by
  obtain ⟨k, hk⟩ : ∃ k, maxRetries = k + 3 := ⟨maxRetries - 3, by omega⟩
  subst hk
  show withRetryGo op rc (k + 3) (k + 2 + 1) 1 none 0 [] = _
  rw [withRetryGo, h1]
  simp only [hn1, hrc1, Bool.true_and, decide_eq_true_eq, if_true, ite_true,
    if_pos (show 1 ≤ k + 3 by omega)]
  show withRetryGo op rc (k + 3) (k + 1 + 1) 2 (some e1) 1 [2 ^ 1] = _
  rw [withRetryGo, h2]
  simp only [hn2, hrc2, Bool.true_and, decide_eq_true_eq, if_true, ite_true,
    if_pos (show 2 ≤ k + 3 by omega)]
  show withRetryGo op rc (k + 3) (k + 1) 3 (some e2) 2 [2 ^ 1, 2 ^ 2] = _
  cases k with
  | zero => rw [withRetryGo, h3]; norm_num
  | succ k => rw [withRetryGo, h3]; norm_num

/-- C8 witness: the concrete operation failing with "timeout" twice then
returning 7, at `maxRetries = 3`. -/
theorem withRetry_recoverable_twice_then_success_witness :
    withRetry
      (fun i => if i ≤ 2 then OpResult.err "timeout" else OpResult.ok 7)
      (fun _ => true) 3 =
      { outcome := Except.ok 7, calls := 3, backoffs := [2, 4] } :=
  withRetry_recoverable_twice_then_success
    (fun i => if i ≤ 2 then OpResult.err "timeout" else OpResult.ok 7)
    (fun _ => true) 3 7 "timeout" "timeout" (by omega) (by decide) (by decide)
    (by decide) (by decide) (by decide) rfl rfl

lemma scanDuplicates_eq_nil (l : List String) :
    ∀ seen : List String,
      (scanDuplicates l seen = [] ↔ l.Nodup ∧ ∀ s ∈ l, s ∉ seen) := by
  induction l with
  | nil => intro seen; simp [scanDuplicates]
  | cons s rest ih =>
    intro seen
    by_cases hs : s ∈ seen
    · simp only [scanDuplicates, if_pos hs]
      constructor
      · intro h; exact absurd h (List.cons_ne_nil _ _)
      · rintro ⟨-, hall⟩; exact absurd hs (hall s (List.mem_cons_self s rest))
    · simp only [scanDuplicates, if_neg hs, ih (s :: seen)]
      constructor
      · rintro ⟨hnd, hall⟩
        have hsr : s ∉ rest := fun hmem =>
          (hall s hmem) (List.mem_cons_self s seen)
        refine ⟨List.nodup_cons.mpr ⟨hsr, hnd⟩, ?_⟩
        intro t ht
        rcases List.mem_cons.mp ht with rfl | htr
        · exact hs
        · exact fun hts => (hall t htr) (List.mem_cons_of_mem s hts)
      · rintro ⟨hnd2, hall2⟩
        obtain ⟨hsr, hnd⟩ := List.nodup_cons.mp hnd2
        refine ⟨hnd, ?_⟩
        intro t htr hmem
        rcases List.mem_cons.mp hmem with rfl | hts
        · exact hsr htr
        · exact (hall2 t (List.mem_cons_of_mem s htr)) hts

/-- C4 counterexample: the two matches ("a|b", "c") and ("a", "b|c") (same
date and score) have distinct signature tuples, yet the Verifier throws on
them — their signature strings collide because a team name contains the
separator. -/
theorem verifyGameweekData_tuple_counterexample :
    (let m1 : Match := ⟨"2022-01-01", "15:00", "a|b", "c", "1:0", "u", false⟩
     let m2 : Match := ⟨"2022-01-01", "15:00", "a", "b|c", "1:0", "u", false⟩
     (m1.homeTeam, m1.awayTeam, m1.date, m1.score) ≠
        (m2.homeTeam, m2.awayTeam, m2.date, m2.score) ∧
     (verifyGameweekData [⟨1, [m1, m2]⟩] 10).isOk = false) := by decide

/-- C4 amended: the Verifier throws if and only if the flattened match
sequence contains two matches with an identical signature STRING
`homeTeam|awayTeam|date|score` (equal tuples always give equal strings, but
distinct tuples can collide when a field itself contains `|`); with
pairwise-distinct signature strings it returns normally regardless of
sparsity, bad-date or empty-gameweek warnings. -/
theorem verifyGameweekData_ok_iff (gameweeks : List Gameweek)
    (expected : Nat) :
    (verifyGameweekData gameweeks expected).isOk = true ↔
      (flatSignatures gameweeks).Nodup := by
  unfold verifyGameweekData
  by_cases hdup : scanDuplicates (flatSignatures gameweeks) [] = []
  · rw [hdup]
    simp only [List.length_nil, gt_iff_lt, Nat.lt_irrefl, if_false,
      Except.isOk, Except.toBool]
    have := (scanDuplicates_eq_nil (flatSignatures gameweeks) []).mp hdup
    simp [this.1]
  · have hlen : 0 < (scanDuplicates (flatSignatures gameweeks) []).length :=
      List.length_pos.mpr hdup
    rw [if_pos hlen]
    simp only [Except.isOk, Except.toBool, Bool.false_eq_true, false_iff]
    intro hnd
    exact hdup ((scanDuplicates_eq_nil (flatSignatures gameweeks) []).mpr
      ⟨hnd, by simp⟩)

lemma partitionDuplicates_sigs_mono (ms : List Match) :
    ∀ (sigs : List String) (s : String), s ∈ sigs →
      s ∈ (partitionDuplicates sigs ms).2.2 := by
  induction ms with
  | nil => intro sigs s hs; exact hs
  | cons m rest ih =>
    intro sigs s hs
    by_cases hm : matchSignature m ∈ sigs
    · simp only [partitionDuplicates, if_pos hm]
      exact ih sigs s hs
    · simp only [partitionDuplicates, if_neg hm]
      exact ih (matchSignature m :: sigs) s (List.mem_cons_of_mem _ hs)

lemma partitionDuplicates_mem_sigs (ms : List Match) :
    ∀ (sigs : List String) (m : Match), m ∈ ms →
      matchSignature m ∈ (partitionDuplicates sigs ms).2.2 := by
  induction ms with
  | nil => intro sigs m hm; cases hm
  | cons m0 rest ih =>
    intro sigs m hm
    by_cases h0 : matchSignature m0 ∈ sigs
    · simp only [partitionDuplicates, if_pos h0]
      rcases List.mem_cons.mp hm with rfl | hr
      · exact partitionDuplicates_sigs_mono rest sigs _ h0
      · exact ih sigs m hr
    · simp only [partitionDuplicates, if_neg h0]
      rcases List.mem_cons.mp hm with rfl | hr
      · exact partitionDuplicates_sigs_mono rest _ _ (List.mem_cons_self _ _)
      · exact ih _ m hr

lemma partitionDuplicates_all_dups (ms : List Match) :
    ∀ sigs : List String, (∀ m ∈ ms, matchSignature m ∈ sigs) →
      partitionDuplicates sigs ms = ([], ms, sigs) := by
  induction ms with
  | nil => intro sigs _; rfl
  | cons m0 rest ih =>
    intro sigs hall
    have h0 : matchSignature m0 ∈ sigs := hall m0 (List.mem_cons_self _ _)
    simp only [partitionDuplicates, if_pos h0,
      ih sigs (fun m hm => hall m (List.mem_cons_of_mem _ hm))]

lemma partitionDuplicates_dups_ne (ms : List Match) :
    ∀ sigs : List String, (∃ m ∈ ms, matchSignature m ∈ sigs) →
      (partitionDuplicates sigs ms).2.1 ≠ [] := by
  induction ms with
  | nil => rintro sigs ⟨m, hm, -⟩; cases hm
  | cons m0 rest ih =>
    rintro sigs ⟨m, hm, hmem⟩
    by_cases h0 : matchSignature m0 ∈ sigs
    · simp only [partitionDuplicates, if_pos h0]
      exact List.cons_ne_nil _ _
    · rcases List.mem_cons.mp hm with rfl | hr
      · exact absurd hmem h0
      · simp only [partitionDuplicates, if_neg h0]
        exact ih (matchSignature m0 :: sigs)
          ⟨m, hr, List.mem_cons_of_mem _ hmem⟩

/-- C10: when an extraction attempt contains at least one match whose
signature is already in the season's running set, the attempt is rejected,
but the non-duplicate matches' signatures have already been added to the
set and are not rolled back — so a retry extracting the same rows finds
every row a duplicate, and the per-week retry loop (maxRetries = 3,
extraction returning the same rows each attempt) never appends the
gameweek and ends with the polluted signature set and the error flag
set. -/
theorem duplicate_rejection_keeps_signatures (sigs : List String)
    (ms : List Match) (expected : Nat) (e : Bool)
    (hdup : ∃ m ∈ ms, matchSignature m ∈ sigs) :
    (partitionDuplicates sigs ms).2.1 ≠ [] ∧
    (∀ m ∈ ms, matchSignature m ∈ (partitionDuplicates sigs ms).2.2) ∧
    partitionDuplicates (partitionDuplicates sigs ms).2.2 ms =
      ([], ms, (partitionDuplicates sigs ms).2.2) ∧
    runWeekAttempts (fun _ => Except.ok ms) expected 3 0 ⟨sigs, e⟩ =
      (none, ⟨(partitionDuplicates sigs ms).2.2, true⟩) := by
  have h1 := partitionDuplicates_dups_ne ms sigs hdup
  have h2 : ∀ m ∈ ms, matchSignature m ∈ (partitionDuplicates sigs ms).2.2 :=
    fun m hm => partitionDuplicates_mem_sigs ms sigs m hm
  have h3 := partitionDuplicates_all_dups ms (partitionDuplicates sigs ms).2.2 h2
  have hms : ms ≠ [] := by
    obtain ⟨m, hm, -⟩ := hdup
    exact List.ne_nil_of_mem hm
  refine ⟨h1, h2, h3, ?_⟩
  have hlen1 : 0 < (partitionDuplicates sigs ms).2.1.length :=
    List.length_pos.mpr h1
  have hlen2 : 0 < ms.length := List.length_pos.mpr hms
  show runWeekAttempts (fun _ => Except.ok ms) expected (2 + 1) 0 ⟨sigs, e⟩ = _
  rw [runWeekAttempts]
  simp only [if_pos hlen1]
  show runWeekAttempts (fun _ => Except.ok ms) expected (1 + 1) 1
    ⟨(partitionDuplicates sigs ms).2.2, true⟩ = _
  rw [runWeekAttempts]
  simp only [h3, if_pos hlen2]
  show runWeekAttempts (fun _ => Except.ok ms) expected (0 + 1) 2
    ⟨(partitionDuplicates sigs ms).2.2, true⟩ = _
  rw [runWeekAttempts]
  simp only [h3, if_pos hlen2]
  rw [runWeekAttempts]

/-- C10 witness: rows [mP, mQ] against a set already holding mP's
signature. -/
theorem duplicate_rejection_keeps_signatures_witness :
    (partitionDuplicates
        [matchSignature ⟨"2022-01-01", "15:00", "P", "Q", "1:0", "u", false⟩]
        [⟨"2022-01-01", "15:00", "P", "Q", "1:0", "u", false⟩,
         ⟨"2022-01-02", "15:00", "R", "S", "2:0", "u", false⟩]).2.1 ≠ [] ∧
    (∀ m ∈ [(⟨"2022-01-01", "15:00", "P", "Q", "1:0", "u", false⟩ : Match),
            ⟨"2022-01-02", "15:00", "R", "S", "2:0", "u", false⟩],
      matchSignature m ∈
        (partitionDuplicates
          [matchSignature ⟨"2022-01-01", "15:00", "P", "Q", "1:0", "u", false⟩]
          [⟨"2022-01-01", "15:00", "P", "Q", "1:0", "u", false⟩,
           ⟨"2022-01-02", "15:00", "R", "S", "2:0", "u", false⟩]).2.2) ∧
    partitionDuplicates
        (partitionDuplicates
          [matchSignature ⟨"2022-01-01", "15:00", "P", "Q", "1:0", "u", false⟩]
          [⟨"2022-01-01", "15:00", "P", "Q", "1:0", "u", false⟩,
           ⟨"2022-01-02", "15:00", "R", "S", "2:0", "u", false⟩]).2.2
        [⟨"2022-01-01", "15:00", "P", "Q", "1:0", "u", false⟩,
         ⟨"2022-01-02", "15:00", "R", "S", "2:0", "u", false⟩] =
      ([],
       [⟨"2022-01-01", "15:00", "P", "Q", "1:0", "u", false⟩,
        ⟨"2022-01-02", "15:00", "R", "S", "2:0", "u", false⟩],
       (partitionDuplicates
          [matchSignature ⟨"2022-01-01", "15:00", "P", "Q", "1:0", "u", false⟩]
          [⟨"2022-01-01", "15:00", "P", "Q", "1:0", "u", false⟩,
           ⟨"2022-01-02", "15:00", "R", "S", "2:0", "u", false⟩]).2.2) ∧
    runWeekAttempts
        (fun _ => Except.ok
          [⟨"2022-01-01", "15:00", "P", "Q", "1:0", "u", false⟩,
           ⟨"2022-01-02", "15:00", "R", "S", "2:0", "u", false⟩])
        10 3 0
        ⟨[matchSignature ⟨"2022-01-01", "15:00", "P", "Q", "1:0", "u", false⟩],
          false⟩ =
      (none,
       ⟨(partitionDuplicates
          [matchSignature ⟨"2022-01-01", "15:00", "P", "Q", "1:0", "u", false⟩]
          [⟨"2022-01-01", "15:00", "P", "Q", "1:0", "u", false⟩,
           ⟨"2022-01-02", "15:00", "R", "S", "2:0", "u", false⟩]).2.2,
        true⟩) :=
  duplicate_rejection_keeps_signatures
    [matchSignature ⟨"2022-01-01", "15:00", "P", "Q", "1:0", "u", false⟩]
    [⟨"2022-01-01", "15:00", "P", "Q", "1:0", "u", false⟩,
     ⟨"2022-01-02", "15:00", "R", "S", "2:0", "u", false⟩]
    10 false (by decide)

/-- Final contents of the signature set (`matchSetSignatures`) after the
dedup loop of sortGameweeksByDate has walked the list. -/
def dedupAcc : List Gameweek → List String → List String
  | [], seen => seen
  | gw :: rest, seen =>
    let s := gwSignature gw
    if s ∈ seen then dedupAcc rest seen else dedupAcc rest (s :: seen)

lemma dedupGameweeks_append (a b : List Gameweek) :
    ∀ seen, dedupGameweeks (a ++ b) seen =
      dedupGameweeks a seen ++ dedupGameweeks b (dedupAcc a seen) := by
  induction a with
  | nil => intro seen; rfl
  | cons gw rest ih =>
    intro seen
    by_cases hs : gwSignature gw ∈ seen
    · simp only [List.cons_append, dedupGameweeks, dedupAcc, if_pos hs]
      exact ih seen
    · simp only [List.cons_append, dedupGameweeks, dedupAcc, if_neg hs,
        List.append_eq]
      rw [ih (gwSignature gw :: seen)]

lemma dedupAcc_mono (l : List Gameweek) :
    ∀ (seen : List String) (s : String), s ∈ seen → s ∈ dedupAcc l seen := by
  induction l with
  | nil => intro seen s hs; exact hs
  | cons gw rest ih =>
    intro seen s hs
    by_cases hg : gwSignature gw ∈ seen
    · simp only [dedupAcc, if_pos hg]; exact ih seen s hs
    · simp only [dedupAcc, if_neg hg]
      exact ih _ s (List.mem_cons_of_mem _ hs)

lemma sig_mem_dedupAcc (l : List Gameweek) :
    ∀ (seen : List String) (gw : Gameweek), gw ∈ l →
      gwSignature gw ∈ dedupAcc l seen := by
  induction l with
  | nil => intro seen gw hgw; cases hgw
  | cons g0 rest ih =>
    intro seen gw hgw
    by_cases hg : gwSignature g0 ∈ seen
    · simp only [dedupAcc, if_pos hg]
      rcases List.mem_cons.mp hgw with rfl | hr
      · exact dedupAcc_mono rest seen _ hg
      · exact ih seen gw hr
    · simp only [dedupAcc, if_neg hg]
      rcases List.mem_cons.mp hgw with rfl | hr
      · exact dedupAcc_mono rest _ _ (List.mem_cons_self _ _)
      · exact ih _ gw hr

lemma sortStrings_eq_of_perm {a b : List String} (h : a.Perm b) :
    sortStrings a = sortStrings b :=
  List.eq_of_perm_of_sorted
    ((List.perm_insertionSort stringLe a).trans
      (h.trans (List.perm_insertionSort stringLe b).symm))
    (List.sorted_insertionSort stringLe a)
    (List.sorted_insertionSort stringLe b)

lemma gwSignature_eq_of_perm {gw1 gw2 : Gameweek}
    (h : (gw1.matches.map matchSignature).Perm
      (gw2.matches.map matchSignature)) :
    gwSignature gw1 = gwSignature gw2 := by
  unfold gwSignature
  rw [sortStrings_eq_of_perm h]

/-- C7: when a later gameweek's match-signature multiset equals an earlier
gameweek's, the dedup stage of the Sequencer drops the later one and keeps
the earlier one in place: the deduplicated (pre-sort) list is exactly what
it would be had the later duplicate not been present. -/
theorem dedupGameweeks_removes_later_duplicate (pre mid post : List Gameweek)
    (gw1 gw2 : Gameweek)
    (hperm : (gw1.matches.map matchSignature).Perm
      (gw2.matches.map matchSignature)) :
    dedupGameweeks (pre ++ gw1 :: mid ++ gw2 :: post) [] =
      dedupGameweeks (pre ++ gw1 :: mid ++ post) [] := by
  have hsig : gwSignature gw1 = gwSignature gw2 := gwSignature_eq_of_perm hperm
  have key : ∀ (A tail : List Gameweek), gwSignature gw2 ∈ dedupAcc A [] →
      dedupGameweeks (A ++ gw2 :: tail) [] = dedupGameweeks (A ++ tail) [] := by
    intro A tail hmem
    rw [dedupGameweeks_append, dedupGameweeks_append]
    congr 1
    simp only [dedupGameweeks, if_pos hmem]
  have hmem : gwSignature gw2 ∈ dedupAcc (pre ++ gw1 :: mid) [] := by
    rw [← hsig]
    exact sig_mem_dedupAcc _ [] gw1 (by simp)
  have hkey := key (pre ++ gw1 :: mid) post hmem
  simpa [List.append_assoc] using hkey

/-- C7 witness: gameweeks 1 and 7 carry the same single match; the dedup
stage keeps gameweek 1 in place and drops gameweek 7. -/
theorem dedupGameweeks_removes_later_duplicate_witness :
    dedupGameweeks
      [⟨1, [⟨"2022-01-01", "15:00", "P", "Q", "1:0", "u", false⟩]⟩,
       ⟨7, [⟨"2022-01-01", "15:00", "P", "Q", "1:0", "u", false⟩]⟩,
       ⟨3, [⟨"2022-01-02", "15:00", "R", "S", "2:0", "u", false⟩]⟩] [] =
    dedupGameweeks
      [⟨1, [⟨"2022-01-01", "15:00", "P", "Q", "1:0", "u", false⟩]⟩,
       ⟨3, [⟨"2022-01-02", "15:00", "R", "S", "2:0", "u", false⟩]⟩] [] :=
  dedupGameweeks_removes_later_duplicate []
    []
    [⟨3, [⟨"2022-01-02", "15:00", "R", "S", "2:0", "u", false⟩]⟩]
    ⟨1, [⟨"2022-01-01", "15:00", "P", "Q", "1:0", "u", false⟩]⟩
    ⟨7, [⟨"2022-01-01", "15:00", "P", "Q", "1:0", "u", false⟩]⟩
    (List.Perm.refl _)

/-- The scenario's matchA: a fixed fixture whose date is the parameter. -/
def matchA (d : String) : Match :=
  ⟨d, "15:00", "Alpha", "Beta", "1:0", "urlA", false⟩

/-- The scenario's matchB, dated 2022-08-01. -/
def matchB : Match := ⟨"2022-08-01", "16:00", "Ceres", "Dione", "2:2", "urlB", false⟩

/-- The scenario's matchC, dated 2022-07-25. -/
def matchC : Match := ⟨"2022-07-25", "17:00", "Elara", "Fenix", "0:0", "urlC", false⟩

/-- C2 counterexample: at matchA date 2022-09-01 (a valid date strictly
later than 2022-08-01) the Sequencer's output is NOT
`[{1, [matchC, matchB]}, {2, [matchA]}]`: the sort key is only the earliest
date per gameweek and `matches: gw.matches` keeps the original order inside
a gameweek, so the first output gameweek holds matchB then matchC. -/
theorem sortGameweeks_scenario_counterexample :
    sortGameweeksByDate
        [⟨1, [matchA "2022-09-01"]⟩, ⟨2, []⟩, ⟨3, [matchB, matchC]⟩] ≠
      [⟨1, [matchC, matchB]⟩, ⟨2, [matchA "2022-09-01"]⟩] := by decide

lemma isValidDate_length {s : String} (h : isValidDate s = true) :
    s.length = 10 := by
  unfold isValidDate at h
  simp only [Bool.and_eq_true, beq_iff_eq] at h
  exact h.1

/-- C2 amended: for every valid matchA date strictly later than 2022-08-01,
the Sequencer applied to
`[{1, [matchA]}, {2, []}, {3, [matchB, matchC]}]` drops the empty gameweek
2, reorders by earliest date and renumbers from 1 — but keeps the match
order within gameweek 3 as extracted, so the output is
`[{1, [matchB, matchC]}, {2, [matchA]}]`. -/
theorem sortGameweeks_scenario_amended (d : String)
    (hv : isValidDate d = true)
    (hgt : ("2022-08-01" : String).data < d.data) :
    sortGameweeksByDate [⟨1, [matchA d]⟩, ⟨2, []⟩, ⟨3, [matchB, matchC]⟩] =
      [⟨1, [matchB, matchC]⟩, ⟨2, [matchA d]⟩] := by
  have hf : List.filter hasValidMatches
      [⟨1, [matchA d]⟩, ⟨2, []⟩, ⟨3, [matchB, matchC]⟩] =
      [⟨1, [matchA d]⟩, ⟨3, [matchB, matchC]⟩] := by
    have h1 : hasValidMatches ⟨1, [matchA d]⟩ = true := by
      simp [hasValidMatches, matchA, hv]
    have h2 : hasValidMatches ⟨2, []⟩ = false := by decide
    have h3 : hasValidMatches ⟨3, [matchB, matchC]⟩ = true := by decide
    simp [List.filter, h1, h2, h3]
  have hsig_ne : gwSignature ⟨3, [matchB, matchC]⟩ ≠
      gwSignature ⟨1, [matchA d]⟩ := by
    intro h
    have hlen := congrArg String.length h
    have e1 : (gwSignature ⟨3, [matchB, matchC]⟩).length = 53 := by decide
    have e2 : (gwSignature ⟨1, [matchA d]⟩).length = 25 := by
      have hd : d.length = 10 := isValidDate_length hv
      show ("Alpha" ++ "|" ++ "Beta" ++ "|" ++ d ++ "|" ++ "1:0").length = 25
      simp only [String.length_append, hd]
      decide
    rw [e1, e2] at hlen
    omega
  have hdedup : dedupGameweeks
      [⟨1, [matchA d]⟩, ⟨3, [matchB, matchC]⟩] [] =
      [⟨1, [matchA d]⟩, ⟨3, [matchB, matchC]⟩] := by
    simp [dedupGameweeks, hsig_ne]
  have he1 : earliestDate ⟨1, [matchA d]⟩ = d := by
    unfold earliestDate
    simp [matchA, hv, sortStrings, List.insertionSort]
  have he3 : earliestDate ⟨3, [matchB, matchC]⟩ = "2022-07-25" := by decide
  have hnotle : ¬ gwDateLe ⟨1, [matchA d]⟩ ⟨3, [matchB, matchC]⟩ := by
    unfold gwDateLe
    rw [he1, he3]
    intro hle
    have h2 : ("2022-07-25" : String).data < ("2022-08-01" : String).data :=
      by decide
    exact absurd (lt_of_le_of_lt hle (h2.trans hgt)) (lt_irrefl _)
  have hsort : List.insertionSort gwDateLe
      [⟨1, [matchA d]⟩, ⟨3, [matchB, matchC]⟩] =
      [⟨3, [matchB, matchC]⟩, ⟨1, [matchA d]⟩] := by
    simp [List.insertionSort, List.orderedInsert, hnotle]
  unfold sortGameweeksByDate
  rw [hf]
  show renumber 0 (List.insertionSort gwDateLe (dedupGameweeks
    [⟨1, [matchA d]⟩, ⟨3, [matchB, matchC]⟩] [])) = _
  rw [hdedup, hsort]
  rfl

/-- C2 amended witness: the amended scenario at matchA date 2022-09-01. -/
theorem sortGameweeks_scenario_amended_witness :
    sortGameweeksByDate
        [⟨1, [matchA "2022-09-01"]⟩, ⟨2, []⟩, ⟨3, [matchB, matchC]⟩] =
      [⟨1, [matchB, matchC]⟩, ⟨2, [matchA "2022-09-01"]⟩] :=
  sortGameweeks_scenario_amended "2022-09-01" (by decide) (by decide)

lemma hasValidMatches_matches_eq {a b : Gameweek} (h : a.matches = b.matches) :
    hasValidMatches a = hasValidMatches b := by
  unfold hasValidMatches
  rw [h]

lemma gwSignature_matches_eq {a b : Gameweek} (h : a.matches = b.matches) :
    gwSignature a = gwSignature b := by
  unfold gwSignature
  rw [h]

lemma earliestDate_matches_eq {a b : Gameweek} (h : a.matches = b.matches) :
    earliestDate a = earliestDate b := by
  unfold earliestDate
  rw [h]

lemma gwDateLe_congr {a a' b b' : Gameweek} (ha : a.matches = a'.matches)
    (hb : b.matches = b'.matches) : gwDateLe a b ↔ gwDateLe a' b' := by
  unfold gwDateLe
  rw [earliestDate_matches_eq ha, earliestDate_matches_eq hb]

lemma renumber_mem (l : List Gameweek) :
    ∀ (i : Nat), ∀ x ∈ renumber i l, ∃ y ∈ l, x.matches = y.matches := by
  induction l with
  | nil => intro i x hx; cases hx
  | cons gw rest ih =>
    intro i x hx
    rcases List.mem_cons.mp hx with rfl | hr
    · exact ⟨gw, List.mem_cons_self _ _, rfl⟩
    · obtain ⟨y, hy, hxy⟩ := ih (i + 1) x hr
      exact ⟨y, List.mem_cons_of_mem _ hy, hxy⟩

lemma renumber_map_sig (l : List Gameweek) :
    ∀ i : Nat, (renumber i l).map gwSignature = l.map gwSignature := by
  induction l with
  | nil => intro i; rfl
  | cons gw rest ih =>
    intro i
    simp only [renumber, List.map_cons, ih (i + 1)]
    congr 1

lemma dedupGameweeks_subset (l : List Gameweek) :
    ∀ seen, ∀ x ∈ dedupGameweeks l seen, x ∈ l := by
  induction l with
  | nil => intro seen x hx; cases hx
  | cons gw rest ih =>
    intro seen x hx
    by_cases hg : gwSignature gw ∈ seen
    · rw [show dedupGameweeks (gw :: rest) seen = dedupGameweeks rest seen
        from by simp [dedupGameweeks, hg]] at hx
      exact List.mem_cons_of_mem _ (ih seen x hx)
    · rw [show dedupGameweeks (gw :: rest) seen =
        gw :: dedupGameweeks rest (gwSignature gw :: seen)
        from by simp [dedupGameweeks, hg]] at hx
      rcases List.mem_cons.mp hx with rfl | hr
      · exact List.mem_cons_self _ _
      · exact List.mem_cons_of_mem _ (ih _ x hr)

lemma dedupGameweeks_sigs_nodup (l : List Gameweek) :
    ∀ seen, ((dedupGameweeks l seen).map gwSignature).Nodup ∧
      ∀ s ∈ (dedupGameweeks l seen).map gwSignature, s ∉ seen := by
  induction l with
  | nil =>
    intro seen
    exact ⟨List.nodup_nil, fun s hs => absurd hs (List.not_mem_nil s)⟩
  | cons gw rest ih =>
    intro seen
    by_cases hg : gwSignature gw ∈ seen
    · rw [show dedupGameweeks (gw :: rest) seen = dedupGameweeks rest seen
        from by simp [dedupGameweeks, hg]]
      exact ih seen
    · rw [show dedupGameweeks (gw :: rest) seen =
        gw :: dedupGameweeks rest (gwSignature gw :: seen)
        from by simp [dedupGameweeks, hg]]
      obtain ⟨hnd, hnotin⟩ := ih (gwSignature gw :: seen)
      simp only [List.map_cons]
      constructor
      · rw [List.nodup_cons]
        exact ⟨fun hmem => (hnotin _ hmem) (List.mem_cons_self _ _), hnd⟩
      · intro s hs
        rcases List.mem_cons.mp hs with rfl | hr
        · exact hg
        · exact fun hsm => (hnotin s hr) (List.mem_cons_of_mem _ hsm)

lemma dedupGameweeks_eq_self (l : List Gameweek) :
    ∀ seen, (l.map gwSignature).Nodup →
      (∀ s ∈ l.map gwSignature, s ∉ seen) →
      dedupGameweeks l seen = l := by
  induction l with
  | nil => intro seen _ _; rfl
  | cons gw rest ih =>
    intro seen hnd hns
    simp only [List.map_cons, List.nodup_cons] at hnd
    have hg : gwSignature gw ∉ seen :=
      hns _ (by simp)
    rw [show dedupGameweeks (gw :: rest) seen =
      gw :: dedupGameweeks rest (gwSignature gw :: seen)
      from by simp [dedupGameweeks, hg]]
    congr 1
    apply ih _ hnd.2
    intro s hs hmem
    rcases List.mem_cons.mp hmem with rfl | hseen
    · exact hnd.1 hs
    · exact hns s (by simp [hs]) hseen

lemma renumber_sorted (l : List Gameweek) (h : List.Sorted gwDateLe l) :
    ∀ i : Nat, List.Sorted gwDateLe (renumber i l) := by
  induction l with
  | nil => intro i; exact List.sorted_nil
  | cons gw rest ih =>
    intro i
    rw [List.sorted_cons] at h
    show List.Sorted gwDateLe
      ({ gameweek := i + 1, «matches» := gw.matches } :: renumber (i + 1) rest)
    rw [List.sorted_cons]
    refine ⟨?_, ih h.2 (i + 1)⟩
    intro b hb
    obtain ⟨y, hy, hby⟩ := renumber_mem rest (i + 1) b hb
    exact (gwDateLe_congr (rfl : gw.matches = gw.matches) hby).mpr (h.1 y hy)

lemma renumber_renumber (l : List Gameweek) :
    ∀ i : Nat, renumber i (renumber i l) = renumber i l := by
  induction l with
  | nil => intro i; rfl
  | cons gw rest ih =>
    intro i
    show renumber i ({ gameweek := i + 1, «matches» := gw.matches } ::
      renumber (i + 1) rest) = _
    simp only [renumber, ih (i + 1)]

/-- C6: the Sequencer is idempotent — applying sortGameweeksByDate to its
own output returns that output unchanged. -/
theorem sortGameweeksByDate_idempotent (gws : List Gameweek) :
    sortGameweeksByDate (sortGameweeksByDate gws) = sortGameweeksByDate gws := by
  have hout : sortGameweeksByDate gws =
      renumber 0 (List.insertionSort gwDateLe
        (dedupGameweeks (gws.filter hasValidMatches) [])) := rfl
  set U := dedupGameweeks (gws.filter hasValidMatches) [] with hU
  set S := List.insertionSort gwDateLe U with hS
  have hvalid : ∀ x ∈ renumber 0 S, hasValidMatches x = true := by
    intro x hx
    obtain ⟨y, hy, hxy⟩ := renumber_mem S 0 x hx
    have hyU : y ∈ U := (List.perm_insertionSort gwDateLe U).mem_iff.mp hy
    have hyf : y ∈ gws.filter hasValidMatches :=
      dedupGameweeks_subset _ [] y hyU
    rw [hasValidMatches_matches_eq hxy]
    exact List.of_mem_filter hyf
  have hfilter : (renumber 0 S).filter hasValidMatches = renumber 0 S :=
    List.filter_eq_self.mpr hvalid
  have hnodupU : (U.map gwSignature).Nodup :=
    (dedupGameweeks_sigs_nodup (gws.filter hasValidMatches) []).1
  have hnodupS : (S.map gwSignature).Nodup :=
    (((List.perm_insertionSort gwDateLe U).map gwSignature).nodup_iff).mpr
      hnodupU
  have hdedup : dedupGameweeks (renumber 0 S) [] = renumber 0 S := by
    apply dedupGameweeks_eq_self
    · rw [renumber_map_sig S 0]
      exact hnodupS
    · intro s _ hmem
      exact absurd hmem (List.not_mem_nil s)
  have hsortedS : List.Sorted gwDateLe S := List.sorted_insertionSort gwDateLe U
  have hsort : List.insertionSort gwDateLe (renumber 0 S) = renumber 0 S :=
    (renumber_sorted S hsortedS 0).insertionSort_eq
  rw [hout]
  show renumber 0 (List.insertionSort gwDateLe
    (dedupGameweeks ((renumber 0 S).filter hasValidMatches) [])) =
    renumber 0 S
  rw [hfilter, hdedup, hsort, renumber_renumber S 0]

end GsaScraper
